import Mathlib

/-!
Shallow embedding of `src/netclop/networkensemble.py` (class `NetworkEnsemble`)
for verification of its specification.

Modelling conventions:
- A `Node` is an opaque hashable identifier, modelled as `Nat`.
- A networkx `DiGraph` is modelled as a `Network`: a list of node identifiers
  and a list of directed edges, where each edge optionally carries the
  `weight` attribute (edges lacking the attribute have `weight = none`).
- Python exceptions are modelled by the inductive `PyError`; methods that can
  raise return `Except PyError _`, or a pair of the post-call object state
  together with an `Option PyError` when mutations made before the raise are
  observable on the object.
- `numpy.random.default_rng(seed).poisson` is external library code; it is
  modelled as a pure deterministic function of the seed, replicate index,
  edge index and mean (see `poissonDraw`).
-/

set_option autoImplicit false

namespace Netclop

/-- A node identifier: an opaque hashable value, modelled as `Nat`. -/
abbrev Node := Nat

/-- A `NodeSet` is an unordered collection of unique nodes. -/
abbrev NodeSet := Finset Node

/-- A `Partition` is a collection of `NodeSet` modules,
as produced by `im_partition` (a list of sets, one per module id). -/
abbrev Partition := List NodeSet

/-- A directed edge of a networkx `DiGraph`, carrying the optional
`weight` attribute (absent attribute is `none`). -/
structure Edge where
  src : Node
  dst : Node
  weight : Option Nat
  deriving DecidableEq

/-- A networkx `DiGraph`: node list and directed edge list
(a `DiGraph` has no parallel edges, so the `(src, dst)` pairs are unique;
none of the modelled operations depends on that uniqueness). -/
structure Network where
  nodes : List Node
  edges : List Edge
  deriving DecidableEq

/-- Modelled from the spec: the default reproducible seed `SEED` is a named
constant in the `constants` module, which is not part of the excerpt; its
exact value is unspecified, so an arbitrary fixed value is used. -/
def SEED : Nat := 42

/-- The frozen `NetworkEnsemble.Config` dataclass.  `im_markov_time` is a
Python float, modelled here as a rational since no claim computes with it. -/
structure Config where
  seed : Nat := SEED
  num_bootstraps : Nat := 1000
  im_markov_time : ℚ := 1
  im_variable_markov_time : Bool := true
  im_num_trials : Nat := 5
  deriving DecidableEq

/-- Python exceptions relevant to the module.  `typeError`, `valueError` and
`indexError` are builtin exceptions; `missingResultError` is imported from
the repository `exceptions` module; `resamplingError` is modelled from the
spec (the spec's error taxonomy names it, the module under `src/` never
raises it); `collaboratorError` stands for an exception propagating out of
an external collaborator (Infomap / SigClu). -/
inductive PyError where
  | typeError
  | valueError
  | indexError
  | missingResultError
  | resamplingError
  | collaboratorError
  deriving DecidableEq

/-- The mutable state of a `NetworkEnsemble` object.  `nodesCache` models the
`functools.cached_property` backing store for the `nodes` property (absent
until the first access). -/
structure State where
  nets : List Network
  cfg : Config
  bootstraps : Option (List Network)
  partitions : Option (List Partition)
  cores : Option Partition
  nodesCache : Option NodeSet
  deriving DecidableEq

/-- The `net` constructor argument: a single `DiGraph` or a `Sequence` of
them (`isinstance(net, Sequence)` branch of `__init__`). -/
def initNets : Network ⊕ List Network → List Network
  | Sum.inl n => [n]
  | Sum.inr ns => ns

/-- Embeds `NetworkEnsemble.__init__`: store the networks and configuration, with
`bootstraps`, `partitions` and `cores` all `None` (and the `nodes` cache
empty). -/
def mkEnsemble (input : Network ⊕ List Network) (cfg : Config) : State :=
  { nets := initNets input
    cfg := cfg
    bootstraps := none
    partitions := none
    cores := none
    nodesCache := none }

/-- Embeds `frozenset().union(*[net.nodes for net in self.nets])`: the union of the
node identifiers of all source networks. -/
def nodeUnion (nets : List Network) : NodeSet :=
  nets.foldr (fun n acc => n.nodes.toFinset ∪ acc) ∅

/-- The `nodes` `cached_property`: on first access compute `nodeUnion` and
store it in the cache; afterwards return the cached value.  Returns the
value together with the post-access object state. -/
def getNodes (st : State) : NodeSet × State :=
  match st.nodesCache with
  | some v => (v, st)
  | none =>
      let v := nodeUnion st.nets
      (v, { st with nodesCache := some v })

/-- Modelled from the spec: `flatten_partition` lives in the `netutils`
module, which is not part of the excerpt; per the spec it is the union of
all `NodeSet`s appearing in the partition. -/
def flatten_partition (p : Partition) : NodeSet :=
  p.foldr (· ∪ ·) ∅

/-- The `unstable_nodes` property: raise `MissingResultError` when `cores`
is `None`, otherwise the difference between the `nodes` union and the
flattened cores.  Returns the result together with the post-access state
(the `nodes` access may populate the cache). -/
def unstable_nodes (st : State) : Except PyError NodeSet × State :=
  match st.cores with
  | none => (Except.error PyError.missingResultError, st)
  | some p =>
      let r := getNodes st
      (Except.ok (r.1 \ flatten_partition p), r.2)

/-- Method `is_ensemble`: true iff more than one source network is stored. -/
def is_ensemble (st : State) : Bool :=
  st.nets.length > 1

/-- Method `is_bootstrapped`: `len(self.bootstraps) == self.cfg.num_bootstraps`.
When `self.bootstraps` is `None`, `len(None)` raises `TypeError`. -/
def is_bootstrapped (st : State) : Except PyError Bool :=
  match st.bootstraps with
  | none => Except.error PyError.typeError
  | some bs => Except.ok (bs.length = st.cfg.num_bootstraps)

/-- Modelled from the spec: a draw of `numpy.random.default_rng(seed).poisson`
with mean `lam`, for replicate `rep` and weighted-edge index `idx` of the
batch.  The generator is seed-deterministic, so the draw is a pure function
of `(seed, rep, idx, lam)`; a Poisson draw with mean `0` is `0` with
probability one, so `lam = 0` yields `0`.  The nonzero branch is an
arbitrary deterministic stand-in for the sampled value. -/
def poissonDraw (seed rep idx lam : Nat) : Nat :=
  if lam = 0 then 0
  else (seed * 2654435761 + rep * 40503 + idx * 2246822519 + lam) % (2 * lam + 1)

/-- Embeds `nx.get_edge_attributes(net, 'weight').items()`: the `(edge, weight)`
pairs of exactly those edges carrying the `weight` attribute, in edge-list
order. -/
def weightAttrs (net : Network) : List ((Node × Node) × Nat) :=
  net.edges.filterMap fun e => e.weight.map fun w => ((e.src, e.dst), w)

/-- One bootstrap replicate's edge list: `net.copy()` followed by
`nx.set_edge_attributes` with `{edges[j]: {"weight": new_weights[i, j]}}`.
Each edge carrying a `weight` attribute (the `j`-th such edge, matching the
column order of the `new_weights` matrix) is given the fresh Poisson draw;
edges without the attribute are untouched. -/
def resampleEdges (seed rep : Nat) : Nat → List Edge → List Edge
  | _, [] => []
  | j, e :: rest =>
      match e.weight with
      | some w =>
          { e with weight := some (poissonDraw seed rep j w) } ::
            resampleEdges seed rep (j + 1) rest
      | none => e :: resampleEdges seed rep j rest

/-- The `i`-th bootstrap replicate: a copy of `net` with resampled weights. -/
def replicateNet (seed : Nat) (net : Network) (i : Nat) : Network :=
  { net with edges := resampleEdges seed i 0 net.edges }

/-- Embeds `NetworkEnsemble.bootstrap(net)`, as a function of the configuration and
the input network, returning the list it assigns to `self.bootstraps`.
`zip(*nx.get_edge_attributes(net, 'weight').items())` raises `ValueError`
(unpacking an empty `zip` into two variables) when no edge carries a
`weight` attribute; otherwise a single generator seeded with `cfg.seed`
produces the `num_bootstraps × num_edges` matrix of Poisson draws and each
replicate `i` is a copy of `net` with row `i` written onto the weighted
edges. -/
def bootstrapRun (cfg : Config) (net : Network) : Except PyError (List Network) :=
  if weightAttrs net = [] then Except.error PyError.valueError
  else Except.ok ((List.range cfg.num_bootstraps).map (replicateNet cfg.seed net))

/-- Left-to-right effectful map, as evaluated by a Python list comprehension:
the first raised exception propagates and no list is produced. -/
def mapE {α β : Type} (f : α → Except PyError β) : List α → Except PyError (List β)
  | [] => Except.ok []
  | a :: rest =>
      match f a with
      | Except.error e => Except.error e
      | Except.ok b =>
          match mapE f rest with
          | Except.error e => Except.error e
          | Except.ok bs => Except.ok (b :: bs)

/-- Embeds `NetworkEnsemble.partition()`.  The external Infomap run `im_partition`
is abstracted as the argument `imP` (a possibly-raising function from a
network to a partition; the spec fixes only that it is deterministic for a
fixed configuration).  Returns the post-call object state together with the
raised exception, if any: a list comprehension is fully evaluated before the
corresponding field assignment, so a raise mid-comprehension leaves the
field at its previous value, while `self.bootstrap(...)` has already
reassigned `self.bootstraps` by the time the second comprehension runs. -/
def partitionOp (imP : Network → Except PyError Partition) (st : State) :
    State × Option PyError :=
  if is_ensemble st then
    match mapE imP st.nets with
    | Except.ok ps => ({ st with partitions := some ps }, none)
    | Except.error e => (st, some e)
  else
    match st.nets with
    | [] => (st, some PyError.indexError)
    | n :: _ =>
        match bootstrapRun st.cfg n with
        | Except.error e => (st, some e)
        | Except.ok bs =>
            let st1 := { st with bootstraps := some bs }
            match mapE imP bs with
            | Except.ok ps => ({ st1 with partitions := some ps }, none)
            | Except.error e => (st1, some e)

/-- Embeds `NetworkEnsemble.sigclu(...)`.  The external `SigClu` collaborator is
abstracted as the argument `scRun` mapping the stored partition ensemble to
the cores partition (modelled from the spec: the `sigclu` module is not part
of the excerpt).  Raises `MissingResultError` when no partition ensemble
exists, leaving the state untouched; otherwise stores the collaborator's
output as `cores`. -/
def sigcluOp (scRun : List Partition → Partition) (st : State) :
    State × Option PyError :=
  match st.partitions with
  | none => (st, some PyError.missingResultError)
  | some ps => ({ st with cores := some (scRun ps) }, none)

/-- The index of edge `k` among the weighted edges preceding it: the column
of the `new_weights` matrix used for edge `k` when it carries a weight. -/
def weightIndex (edges : List Edge) (k : Nat) : Nat :=
  (edges.take k).countP fun e => e.weight.isSome

/-! Concrete fixtures used to instantiate the theorems below. -/

/-- A 3-node directed cycle with weighted edges. -/
def netA : Network :=
  ⟨[0, 1, 2], [⟨0, 1, some 5⟩, ⟨1, 2, some 3⟩, ⟨2, 0, some 2⟩]⟩

/-- A second 3-node network with a distinct topology. -/
def netB : Network :=
  ⟨[3, 4, 5], [⟨3, 4, some 1⟩, ⟨4, 5, some 1⟩]⟩

/-- A network whose only edge carries no `weight` attribute. -/
def netNoW : Network :=
  ⟨[0, 1], [⟨0, 1, none⟩]⟩

/-- A 4-node network exercising positive, zero and absent edge weights. -/
def netD : Network :=
  ⟨[0, 1, 2, 3], [⟨0, 1, some 5⟩, ⟨1, 2, some 3⟩, ⟨2, 0, some 0⟩, ⟨0, 3, none⟩]⟩

/-- A small configuration (two replicates) for concrete evaluation. -/
def cfgA : Config :=
  { seed := 7, num_bootstraps := 2 }

/-- Same seed and replicate count as `cfgA`, different Infomap tuning. -/
def cfgB : Config :=
  { seed := 7, num_bootstraps := 2, im_num_trials := 9 }

/-- A freshly constructed ensemble over two source networks. -/
def stTwo : State :=
  mkEnsemble (Sum.inr [netA, netB]) cfgA

/-- A freshly constructed ensemble over a single source network. -/
def stOne : State :=
  mkEnsemble (Sum.inl netA) cfgA

/-- A state whose cores partition has been set. -/
def stCores : State :=
  { mkEnsemble (Sum.inl netA) cfgA with cores := some [{0, 1}] }

/-- The bootstrap replicate list `bootstrapRun cfgA netA` produces. -/
def bsOne : List Network :=
  (List.range cfgA.num_bootstraps).map (replicateNet cfgA.seed netA)

/-! Helper lemmas. -/

theorem nodeUnion_cons (n : Network) (rest : List Network) :
    nodeUnion (n :: rest) = n.nodes.toFinset ∪ nodeUnion rest := rfl

theorem mem_nodeUnion (nets : List Network) (x : Node) :
    x ∈ nodeUnion nets ↔ ∃ n ∈ nets, x ∈ n.nodes := by
  induction nets with
  | nil => simp [nodeUnion]
  | cons n rest ih =>
      rw [nodeUnion_cons]
      simp [Finset.mem_union, List.mem_toFinset, ih]

theorem flatten_partition_cons (s : NodeSet) (p : Partition) :
    flatten_partition (s :: p) = s ∪ flatten_partition p := rfl

theorem mem_flatten_partition (p : Partition) (x : Node) :
    x ∈ flatten_partition p ↔ ∃ s ∈ p, x ∈ s := by
  induction p with
  | nil => simp [flatten_partition]
  | cons s rest ih =>
      rw [flatten_partition_cons]
      simp [Finset.mem_union, ih]

theorem mapE_ok {α β : Type} (f : α → β) (l : List α) :
    mapE (fun a => Except.ok (f a)) l = Except.ok (l.map f) := by
  induction l with
  | nil => rfl
  | cons a rest ih => simp [mapE, ih]

theorem getNodes_cores_set (st : State) (q : Option Partition) :
    getNodes { st with cores := q } =
      ((getNodes st).1, { (getNodes st).2 with cores := q }) := by
  cases st with
  | mk nets cfg b p c nc => cases nc <;> rfl

/-! Claim theorems. -/

/-- C5: accessing `unstable_nodes` while `cores` is `None` raises
`MissingResultError`; it never returns a value (in particular, not a silent
empty set). -/
theorem unstable_nodes_missing_cores (st : State) (h : st.cores = none) :
    (unstable_nodes st).1 = Except.error PyError.missingResultError ∧
    ∀ u : NodeSet, (unstable_nodes st).1 ≠ Except.ok u := by
  have he : (unstable_nodes st).1 = Except.error PyError.missingResultError := by
    simp [unstable_nodes, h]
  refine ⟨he, fun u hu => ?_⟩
  rw [he] at hu
  exact Except.noConfusion hu

/-- C5 witness: a freshly constructed ensemble has no cores, and accessing
`unstable_nodes` on it errors. -/
theorem unstable_nodes_missing_cores_witness :
    (unstable_nodes stOne).1 = Except.error PyError.missingResultError ∧
    ∀ u : NodeSet, (unstable_nodes stOne).1 ≠ Except.ok u :=
  unstable_nodes_missing_cores stOne rfl

/-- C2: evaluating the code at the failing input: on every freshly
constructed `NetworkEnsemble`, before any bootstrapping, `is_bootstrapped()`
evaluates `len(None)` and raises `TypeError` instead of returning `False` as
the specification states. -/
theorem is_bootstrapped_raises_before_bootstrap
    (input : Network ⊕ List Network) (cfg : Config) :
    is_bootstrapped (mkEnsemble input cfg) = Except.error PyError.typeError := rfl

/-- C3 counterexample: on a network with no weighted edges the code raises
`ValueError` (tuple unpacking of the empty attribute mapping), not the
spec's `ResamplingError`. -/
theorem bootstrap_no_weighted_edges_counterexample :
    bootstrapRun cfgA netNoW = Except.error PyError.valueError ∧
    bootstrapRun cfgA netNoW ≠ Except.error PyError.resamplingError := by
  refine ⟨rfl, fun h => ?_⟩
  rw [show bootstrapRun cfgA netNoW = Except.error PyError.valueError from rfl] at h
  simp at h

/-- C3 amended: for every input network with no weighted edges, weight
resampling fails with a `ValueError` from unpacking the empty weight
mapping — an error rather than silently producing degenerate replicates —
but not with a `ResamplingError`. -/
theorem bootstrap_no_weighted_edges_fails (cfg : Config) (net : Network)
    (h : weightAttrs net = []) :
    bootstrapRun cfg net = Except.error PyError.valueError := by
  simp [bootstrapRun, h]

/-- C3 amended witness: the concrete no-weighted-edges network errors. -/
theorem bootstrap_no_weighted_edges_fails_witness :
    weightAttrs netNoW = [] ∧
    bootstrapRun ({} : Config) netNoW = Except.error PyError.valueError :=
  ⟨rfl, bootstrap_no_weighted_edges_fails {} netNoW rfl⟩

/-- C6: `sigclu` raises `MissingResultError` when no partition ensemble
exists, leaving the object state untouched (it does not compute the missing
partitions); when partitions exist, the collaborator's output is stored as
`cores`. -/
theorem sigclu_requires_partitions
    (scRun : List Partition → Partition) (st : State) :
    (st.partitions = none →
      sigcluOp scRun st = (st, some PyError.missingResultError)) ∧
    ∀ ps, st.partitions = some ps →
      sigcluOp scRun st = ({ st with cores := some (scRun ps) }, none) := by
  constructor
  · intro h
    simp [sigcluOp, h]
  · intro ps h
    simp [sigcluOp, h]

/-- C6 witness: on a fresh ensemble `sigclu` errors without touching state;
with a stored partition ensemble it records the collaborator output. -/
theorem sigclu_requires_partitions_witness :
    sigcluOp (fun _ => []) stOne = (stOne, some PyError.missingResultError) ∧
    sigcluOp (fun _ => []) { stOne with partitions := some [[{0}]] } =
      ({ stOne with
          partitions := some [[{0}]]
          cores := some [] }, none) :=
  ⟨(sigclu_requires_partitions (fun _ => []) stOne).1 rfl,
   (sigclu_requires_partitions (fun _ => [])
      { stOne with partitions := some [[{0}]] }).2 [[{0}]] rfl⟩

/-- C8: the batch of bootstrap draws is a deterministic function of the seed,
the replicate count and the input network alone: any two configurations
agreeing on seed and `num_bootstraps` resample a network identically, so
re-running with the same seed and input is bit-identical. -/
theorem bootstrap_seed_determinism (c1 c2 : Config) (net : Network)
    (hs : c1.seed = c2.seed) (hb : c1.num_bootstraps = c2.num_bootstraps) :
    bootstrapRun c1 net = bootstrapRun c2 net := by
  unfold bootstrapRun
  rw [hs, hb]

/-- C8 witness: two configurations differing only in Infomap tuning resample
`netA` identically. -/
theorem bootstrap_seed_determinism_witness :
    cfgA.seed = cfgB.seed ∧ cfgA.num_bootstraps = cfgB.num_bootstraps ∧
    bootstrapRun cfgA netA = bootstrapRun cfgB netA :=
  ⟨rfl, rfl, bootstrap_seed_determinism cfgA cfgB netA rfl rfl⟩

/-- C9: the `nodes` property of a fresh ensemble is the union of the node
identifiers of all source networks; the first access caches it, and any
later access returns the very same value with the object state unchanged. -/
theorem nodes_union_cached (input : Network ⊕ List Network) (cfg : Config) :
    (∀ x : Node, x ∈ (getNodes (mkEnsemble input cfg)).1 ↔
      ∃ n ∈ initNets input, x ∈ n.nodes) ∧
    getNodes ((getNodes (mkEnsemble input cfg)).2) =
      ((getNodes (mkEnsemble input cfg)).1, (getNodes (mkEnsemble input cfg)).2) := by
  constructor
  · intro x
    have h1 : (getNodes (mkEnsemble input cfg)).1 = nodeUnion (initNets input) := rfl
    rw [h1]
    exact mem_nodeUnion (initNets input) x
  · rfl

/-- C4: when cores exist, `unstable_nodes` is exactly the node union minus
the union of the cores' `NodeSet`s (so it is disjoint from every cores
`NodeSet`), and it is recomputed from whatever partition `cores` currently
holds on each access rather than cached. -/
theorem unstable_nodes_complement (st : State) (p : Partition)
    (h : st.cores = some p) :
    (∃ u, (unstable_nodes st).1 = Except.ok u ∧
      (∀ x : Node, x ∈ u ↔ x ∈ (getNodes st).1 ∧ ∀ s ∈ p, x ∉ s) ∧
      ∀ s ∈ p, ∀ x ∈ s, x ∉ u) ∧
    ∀ q : Partition, ∃ u,
      (unstable_nodes { st with cores := some q }).1 = Except.ok u ∧
      ∀ x : Node, x ∈ u ↔ x ∈ (getNodes st).1 ∧ ∀ s ∈ q, x ∉ s := by
  have key : ∀ (st' : State) (p' : Partition), st'.cores = some p' →
      ∃ u, (unstable_nodes st').1 = Except.ok u ∧
        ∀ x : Node, x ∈ u ↔ x ∈ (getNodes st').1 ∧ ∀ s ∈ p', x ∉ s := by
    intro st' p' h'
    refine ⟨(getNodes st').1 \ flatten_partition p', by simp [unstable_nodes, h'], ?_⟩
    intro x
    rw [Finset.mem_sdiff, mem_flatten_partition]
    constructor
    · rintro ⟨hx, hns⟩
      exact ⟨hx, fun s hs hxs => hns ⟨s, hs, hxs⟩⟩
    · rintro ⟨hx, hns⟩
      exact ⟨hx, fun ⟨s, hs, hxs⟩ => hns s hs hxs⟩
  obtain ⟨u, hu, hmem⟩ := key st p h
  refine ⟨⟨u, hu, hmem, ?_⟩, ?_⟩
  · intro s hs x hxs hxu
    exact ((hmem x).1 hxu).2 s hs hxs
  · intro q
    obtain ⟨u', hu', hmem'⟩ := key { st with cores := some q } q rfl
    refine ⟨u', hu', ?_⟩
    intro x
    rw [hmem', getNodes_cores_set]

/-- C4 witness: the complement characterisation at a concrete state whose
cores are `[{0, 1}]`. -/
theorem unstable_nodes_complement_witness :
    ∃ u, (unstable_nodes stCores).1 = Except.ok u ∧
      (∀ x : Node, x ∈ u ↔
        x ∈ (getNodes stCores).1 ∧ ∀ s ∈ [({0, 1} : NodeSet)], x ∉ s) ∧
      ∀ s ∈ [({0, 1} : NodeSet)], ∀ x ∈ s, x ∉ u :=
  (unstable_nodes_complement stCores [{0, 1}] rfl).1

/-- C1: `partition()` selects its branch purely by input shape: with more
than one source network it runs detection once per network, storing one
partition per network and leaving `bootstraps` untouched; with exactly one
source network (having a weighted edge, so resampling succeeds) it first
stores the configured number of bootstrap replicates and then one partition
per replicate. -/
theorem partition_branches_by_shape
    (f : Network → Partition) (st : State) :
    (st.nets.length > 1 →
      partitionOp (fun n => Except.ok (f n)) st =
        ({ st with partitions := some (st.nets.map f) }, none)) ∧
    (∀ n : Network, st.nets = [n] → weightAttrs n ≠ [] →
      ∃ bs : List Network,
        bootstrapRun st.cfg n = Except.ok bs ∧
        bs.length = st.cfg.num_bootstraps ∧
        partitionOp (fun m => Except.ok (f m)) st =
          ({ st with
              bootstraps := some bs
              partitions := some (bs.map f) }, none)) := by
  constructor
  · intro h
    simp [partitionOp, is_ensemble, h, mapE_ok]
  · intro n hn hw
    refine ⟨(List.range st.cfg.num_bootstraps).map (replicateNet st.cfg.seed n),
      ?_, by simp, ?_⟩
    · simp [bootstrapRun, hw]
    · simp [partitionOp, is_ensemble, hn, bootstrapRun, hw, mapE_ok]

/-- C1 witness: the two-network fixture takes the per-network branch; the
single-network fixture bootstraps two replicates and partitions each. -/
theorem partition_branches_by_shape_witness :
    (partitionOp (fun n => Except.ok [n.nodes.toFinset]) stTwo =
      ({ stTwo with
          partitions := some (stTwo.nets.map fun n => [n.nodes.toFinset]) },
        none)) ∧
    ∃ bs : List Network,
      bootstrapRun stOne.cfg netA = Except.ok bs ∧
      bs.length = stOne.cfg.num_bootstraps ∧
      partitionOp (fun m => Except.ok [m.nodes.toFinset]) stOne =
        ({ stOne with
            bootstraps := some bs
            partitions := some (bs.map fun n => [n.nodes.toFinset]) }, none) :=
  ⟨(partition_branches_by_shape (fun n => [n.nodes.toFinset]) stTwo).1
      (by decide),
   (partition_branches_by_shape (fun n => [n.nodes.toFinset]) stOne).2
      netA rfl (by decide)⟩

/-- C10: if the detection procedure raises partway through `partition()`,
the `partitions` field keeps its prior value (the new list is assigned only
after every run completes); in single-network mode the `bootstraps` field
has already been replaced by the time detection runs. -/
theorem partition_failure_state
    (imP : Network → Except PyError Partition) (st : State) (e : PyError) :
    (st.nets.length > 1 → mapE imP st.nets = Except.error e →
      partitionOp imP st = (st, some e)) ∧
    (∀ n bs, st.nets = [n] → bootstrapRun st.cfg n = Except.ok bs →
      mapE imP bs = Except.error e →
      partitionOp imP st = ({ st with bootstraps := some bs }, some e)) := by
  constructor
  · intro h hmap
    simp [partitionOp, is_ensemble, h, hmap]
  · intro n bs hn hboot hmap
    simp [partitionOp, is_ensemble, hn, hboot, hmap]

theorem resampleEdges_cons_some (seed rep j : Nat) (e : Edge) (w : Nat)
    (rest : List Edge) (hw : e.weight = some w) :
    resampleEdges seed rep j (e :: rest) =
      { e with weight := some (poissonDraw seed rep j w) } ::
        resampleEdges seed rep (j + 1) rest := by
  simp [resampleEdges, hw]

theorem resampleEdges_cons_none (seed rep j : Nat) (e : Edge)
    (rest : List Edge) (hw : e.weight = none) :
    resampleEdges seed rep j (e :: rest) = e :: resampleEdges seed rep j rest := by
  simp [resampleEdges, hw]

theorem resampleEdges_length (seed rep : Nat) (es : List Edge) :
    ∀ j : Nat, (resampleEdges seed rep j es).length = es.length := by
  induction es with
  | nil => intro j; rfl
  | cons e rest ih =>
      intro j
      cases hw : e.weight with
      | some w => rw [resampleEdges_cons_some seed rep j e w rest hw]; simp [ih]
      | none => rw [resampleEdges_cons_none seed rep j e rest hw]; simp [ih]

theorem weightIndex_zero (es : List Edge) : weightIndex es 0 = 0 := by
  simp [weightIndex]

theorem weightIndex_cons_some (e : Edge) (rest : List Edge) (k w : Nat)
    (hw : e.weight = some w) :
    weightIndex (e :: rest) (k + 1) = weightIndex rest k + 1 := by
  simp [weightIndex, List.take_succ_cons, List.countP_cons, hw]

theorem weightIndex_cons_none (e : Edge) (rest : List Edge) (k : Nat)
    (hw : e.weight = none) :
    weightIndex (e :: rest) (k + 1) = weightIndex rest k := by
  simp [weightIndex, List.take_succ_cons, List.countP_cons, hw]

theorem resampleEdges_getElem (seed rep : Nat) (es : List Edge) :
    ∀ (j k : Nat) (hk : k < es.length)
      (hk2 : k < (resampleEdges seed rep j es).length),
      (resampleEdges seed rep j es)[k].src = es[k].src ∧
      (resampleEdges seed rep j es)[k].dst = es[k].dst ∧
      (es[k].weight = none → (resampleEdges seed rep j es)[k] = es[k]) ∧
      ∀ w, es[k].weight = some w →
        (resampleEdges seed rep j es)[k].weight =
          some (poissonDraw seed rep (j + weightIndex es k) w) := by
  induction es with
  | nil => intro j k hk hk2; exact absurd hk (by simp)
  | cons e rest ih =>
      intro j k hk hk2
      cases hw : e.weight with
      | some w =>
          cases k with
          | zero =>
              simp only [resampleEdges_cons_some seed rep j e w rest hw,
                List.getElem_cons_zero, weightIndex_zero, Nat.add_zero]
              refine ⟨by trivial, by trivial, ?_, ?_⟩
              · intro hnone
                rw [hw] at hnone
                exact Option.noConfusion hnone
              · intro w' hw'
                rw [hw, Option.some.injEq] at hw'
                subst hw'
                rfl
          | succ k' =>
              have hk' : k' < rest.length := by
                simpa using Nat.lt_of_succ_lt_succ hk
              have hk2' : k' < (resampleEdges seed rep (j + 1) rest).length := by
                rw [resampleEdges_length]; exact hk'
              obtain ⟨h1, h2, h3, h4⟩ := ih (j + 1) k' hk' hk2'
              simp only [resampleEdges_cons_some seed rep j e w rest hw,
                List.getElem_cons_succ]
              refine ⟨h1, h2, h3, ?_⟩
              intro w' hw'
              rw [h4 w' hw']
              have hidx : j + weightIndex (e :: rest) (k' + 1) =
                  j + 1 + weightIndex rest k' := by
                rw [weightIndex_cons_some e rest k' w hw]
                omega
              rw [hidx]
      | none =>
          cases k with
          | zero =>
              simp only [resampleEdges_cons_none seed rep j e rest hw,
                List.getElem_cons_zero]
              refine ⟨by trivial, by trivial, fun _ => by trivial, ?_⟩
              intro w' hw'
              rw [hw] at hw'
              exact Option.noConfusion hw'
          | succ k' =>
              have hk' : k' < rest.length := by
                simpa using Nat.lt_of_succ_lt_succ hk
              have hk2' : k' < (resampleEdges seed rep j rest).length := by
                rw [resampleEdges_length]; exact hk'
              obtain ⟨h1, h2, h3, h4⟩ := ih j k' hk' hk2'
              simp only [resampleEdges_cons_none seed rep j e rest hw,
                List.getElem_cons_succ]
              refine ⟨h1, h2, h3, ?_⟩
              intro w' hw'
              rw [h4 w' hw']
              rw [weightIndex_cons_none e rest k' hw]

/-- C7: on a network with at least one weighted edge, bootstrap resampling
produces exactly `num_bootstraps` replicates; each replicate keeps the
input's node list and edge topology (sources, targets, length; edges without
a `weight` attribute are copied unchanged), and each weighted edge's weight
is replaced by the modelled Poisson draw whose mean parameter is the
original weight, so an original weight of `0` always resamples to `0`. -/
theorem bootstrap_replicates_structure (cfg : Config) (net : Network)
    (h : weightAttrs net ≠ []) :
    ∃ bs : List Network,
      bootstrapRun cfg net = Except.ok bs ∧
      bs.length = cfg.num_bootstraps ∧
      ∀ (i : Nat) (hi : i < bs.length),
        bs[i].nodes = net.nodes ∧
        bs[i].edges.length = net.edges.length ∧
        ∀ (k : Nat) (hk : k < net.edges.length)
          (hk2 : k < bs[i].edges.length),
          bs[i].edges[k].src = net.edges[k].src ∧
          bs[i].edges[k].dst = net.edges[k].dst ∧
          (net.edges[k].weight = none → bs[i].edges[k] = net.edges[k]) ∧
          (∀ w, net.edges[k].weight = some w →
            bs[i].edges[k].weight =
              some (poissonDraw cfg.seed i (weightIndex net.edges k) w)) ∧
          (net.edges[k].weight = some 0 → bs[i].edges[k].weight = some 0) := by
  refine ⟨(List.range cfg.num_bootstraps).map (replicateNet cfg.seed net),
    by simp [bootstrapRun, h], by simp, ?_⟩
  intro i hi
  have hlen : ((List.range cfg.num_bootstraps).map
      (replicateNet cfg.seed net)).length = cfg.num_bootstraps := by simp
  have hi' : i < cfg.num_bootstraps := hlen ▸ hi
  have hbi : ((List.range cfg.num_bootstraps).map
      (replicateNet cfg.seed net))[i] = replicateNet cfg.seed net i := by
    simp
  rw [hbi]
  refine ⟨rfl, ?_, ?_⟩
  · simp [replicateNet, resampleEdges_length]
  · intro k hk hk2
    have hk2' : k < (resampleEdges cfg.seed i 0 net.edges).length := by
      rw [resampleEdges_length]; exact hk
    obtain ⟨h1, h2, h3, h4⟩ :=
      resampleEdges_getElem cfg.seed i net.edges 0 k hk hk2'
    refine ⟨h1, h2, h3, ?_, ?_⟩
    · intro w hw
      have hdraw := h4 w hw
      rw [Nat.zero_add] at hdraw
      exact hdraw
    · intro hw
      have hdraw := h4 0 hw
      rw [Nat.zero_add] at hdraw
      simpa [poissonDraw] using hdraw

/-- C7 witness: the structural guarantees at the concrete 4-node network
with positive, zero and absent weights, with two replicates. -/
theorem bootstrap_replicates_structure_witness :
    weightAttrs netD ≠ [] ∧
    ∃ bs : List Network,
      bootstrapRun cfgA netD = Except.ok bs ∧
      bs.length = cfgA.num_bootstraps ∧
      ∀ (i : Nat) (hi : i < bs.length),
        bs[i].nodes = netD.nodes ∧
        bs[i].edges.length = netD.edges.length ∧
        ∀ (k : Nat) (hk : k < netD.edges.length)
          (hk2 : k < bs[i].edges.length),
          bs[i].edges[k].src = netD.edges[k].src ∧
          bs[i].edges[k].dst = netD.edges[k].dst ∧
          (netD.edges[k].weight = none → bs[i].edges[k] = netD.edges[k]) ∧
          (∀ w, netD.edges[k].weight = some w →
            bs[i].edges[k].weight =
              some (poissonDraw cfgA.seed i (weightIndex netD.edges k) w)) ∧
          (netD.edges[k].weight = some 0 → bs[i].edges[k].weight = some 0) :=
  ⟨by decide, bootstrap_replicates_structure cfgA netD (by decide)⟩

/-- C10 witness: a detection procedure that always raises leaves the
two-network fixture entirely unchanged, and leaves the single-network
fixture with replicates stored but partitions still `None`. -/
theorem partition_failure_state_witness :
    partitionOp (fun _ => Except.error PyError.collaboratorError) stTwo =
      (stTwo, some PyError.collaboratorError) ∧
    partitionOp (fun _ => Except.error PyError.collaboratorError) stOne =
      ({ stOne with bootstraps := some bsOne },
        some PyError.collaboratorError) :=
  ⟨(partition_failure_state (fun _ => Except.error PyError.collaboratorError)
      stTwo PyError.collaboratorError).1 (by decide) rfl,
   (partition_failure_state (fun _ => Except.error PyError.collaboratorError)
      stOne PyError.collaboratorError).2 netA bsOne rfl rfl rfl⟩

end Netclop
